import Mathlib

/-!
Shallow embedding of the gesture-recognition app's core orchestration logic.

Sources:
- `src/unnamed/part_001` (types.ts): `GestureResponse`, `AppState`, `HistoryItem`.
- `src/unnamed/part_000` (App.tsx): component state, `handleCapture`,
  `toggleScanning`, `handleError`, and the toggle button's `disabled` attribute.
- `src/services/geminiService.ts`: `analyzeGesture` and its error sentinel.
- `src/components/WebcamCapture.tsx`: the capture loop (`captureFrame` plus
  the 1.5 s interval), which only invokes `onCapture` while `isScanning`.

JS numbers carrying confidence scores are embedded as exact rationals `ℚ`;
strings are Lean `String`s.  The asynchronous `handleCapture` is split at its
single suspension point (the `await analyzeGesture(...)`) into an entry half
(guard check, guard set, call issue) and a resume half (result ingestion and
guard clearing in the `finally` block); issued-but-uncompleted calls are
tracked in an explicit `outstanding` list so that "at most one call is in
flight" is a provable property rather than one baked into the state type.
-/

/-- `GestureResponse` from types.ts: gesture label, confidence score,
description, emoji and optional suggested action. -/
structure GestureResponse where
  gesture : String
  confidence : ℚ
  description : String
  emoji : String
  actionSuggested : Option String := none
deriving DecidableEq, Repr

/-- `AppState` enum from types.ts. -/
inductive AppState where
  | IDLE
  | SCANNING
  | ERROR
deriving DecidableEq, Repr

/-- `HistoryItem` from types.ts: a timestamp paired with a result. -/
structure HistoryItem where
  timestamp : ℕ
  result : GestureResponse
deriving DecidableEq, Repr

/-- The `App` component's state (App.tsx lines 9-17), plus the bookkeeping
list `outstanding` of issued-but-uncompleted `analyzeGesture` calls (each
recorded by its base64 image argument).  In the real program at most one such
call can exist; here the list lets us prove that instead of assuming it. -/
structure AppModel where
  appState : AppState
  currentResult : Option GestureResponse
  history : List HistoryItem
  isProcessing : Bool
  errorMsg : Option String
  isProcessingRef : Bool
  outstanding : List String
deriving DecidableEq, Repr

/-- Initial component state: `IDLE`, no result, empty history, not
processing, no error message, guard false, nothing in flight. -/
def initModel : AppModel :=
  { appState := AppState.IDLE
    currentResult := none
    history := []
    isProcessing := false
    errorMsg := none
    isProcessingRef := false
    outstanding := [] }

/-- The acceptance test of App.tsx line 33:
`result.gesture !== 'None' && result.gesture !== 'Error' && result.confidence > 0.6`.
The decimal literal 0.6 is embedded as the exact rational `mkRat 6 10`. -/
def acceptedForHistory (result : GestureResponse) : Bool :=
  result.gesture != "None" && result.gesture != "Error" &&
    decide (mkRat 6 10 < result.confidence)

/-- The `setHistory` updater of App.tsx lines 34-38: cons the new item in
front and keep the first 20 items. -/
def pushHistory (now : ℕ) (result : GestureResponse)
    (prev : List HistoryItem) : List HistoryItem :=
  ({ timestamp := now, result := result } :: prev).take 20

/-- First half of `handleCapture` (App.tsx lines 19-28), up to the `await`:
if `isProcessingRef.current` is set the tick is dropped with no effect at
all; otherwise the guard and the `isProcessing` flag are set, the error
message is cleared, and one `analyzeGesture` call is issued. -/
def handleCaptureEntry (s : AppModel) (img : String) : AppModel :=
  if s.isProcessingRef then s
  else
    { s with
      isProcessingRef := true
      isProcessing := true
      errorMsg := none
      outstanding := s.outstanding ++ [img] }

/-- Ingestion of a completed call's result (App.tsx lines 30-39):
`setCurrentResult(result)` unconditionally, then append to history only when
the acceptance test passes. -/
def ingestResult (now : ℕ) (result : GestureResponse) (s : AppModel) : AppModel :=
  let s1 := { s with currentResult := some result }
  if acceptedForHistory result then
    { s1 with history := pushHistory now result s1.history }
  else s1

/-- Second half of `handleCapture` (App.tsx lines 30-47): ingest the result,
then the `finally` block clears `isProcessing` and the guard; the completed
call leaves the outstanding list.  `analyzeGesture` never throws (every path
returns a value, see `analyzeGesture` below), so the `catch` branch of
App.tsx lines 41-43 is unreachable and the result is ingested on success and
sentinel-error completions alike. -/
def handleCaptureResume (now : ℕ) (result : GestureResponse) (s : AppModel) : AppModel :=
  let s1 := ingestResult now result s
  { s1 with
    isProcessing := false
    isProcessingRef := false
    outstanding := s1.outstanding.drop 1 }

/-- `toggleScanning` (App.tsx lines 50-58): from `SCANNING` go to `IDLE` and
clear the current result; from any other state go to `SCANNING` and clear the
error message. -/
def toggleScanning (s : AppModel) : AppModel :=
  if s.appState = AppState.SCANNING then
    { s with appState := AppState.IDLE, currentResult := none }
  else
    { s with appState := AppState.SCANNING, errorMsg := none }

/-- `handleError` (App.tsx lines 60-63): enter `ERROR` and record the
message. -/
def handleError (s : AppModel) (msg : String) : AppModel :=
  { s with appState := AppState.ERROR, errorMsg := some msg }

/-- The header button (App.tsx lines 86-106): its `onClick` is
`toggleScanning` and it is `disabled` exactly when `appState === AppState.ERROR`,
so pressing it in the `ERROR` state changes nothing. -/
def pressToggleButton (s : AppModel) : AppModel :=
  if s.appState = AppState.ERROR then s else toggleScanning s

/-- Outcome of one oracle round trip, as observed inside `analyzeGesture`
(geminiService.ts lines 26-69): the `await ai.models.generateContent` call
throws (transport failure), or it returns with falsy `response.text`
(absent or empty), or `JSON.parse(text)` throws (malformed response), or
parsing yields a structured `GestureResponse`. -/
inductive CallOutcome where
  | transportError
  | emptyText
  | parseError
  | parsed (r : GestureResponse)
deriving DecidableEq, Repr

/-- The fallback value built in the `catch` of geminiService.ts lines 69-78.
Its `emoji` field is the two-code-point string U+26A0 U+FE0F. -/
def errorSentinel : GestureResponse :=
  { gesture := "Error"
    confidence := 0
    description := "Failed to analyze frame."
    emoji := "⚠️" }

/-- `analyzeGesture` (geminiService.ts lines 25-79) as a function of the
oracle outcome: a successfully parsed response is returned as-is; every
other outcome reaches the `catch` (the falsy-text check throws, `JSON.parse`
throws, the transport throws) and yields `errorSentinel`.  The function is
total: no outcome propagates an error to the caller. -/
def analyzeGesture : CallOutcome → GestureResponse
  | CallOutcome.parsed r => r
  | _ => errorSentinel

/-- Sentinel classification exactly as the specification words it, for
comparison with `errorSentinel`: lowercase label "error" and the bare glyph
U+26A0 without the variation selector. -/
def specSentinel : GestureResponse :=
  { gesture := "error"
    confidence := 0
    description := "Failed to analyze frame."
    emoji := "⚠" }

/-- Events driving the closed-loop model.  `tick` is one firing of
`captureFrame` in WebcamCapture.tsx lines 51-79 — it invokes `onCapture`
(i.e. `handleCaptureEntry`) only while `isScanning`, which holds exactly when
`appState = SCANNING` (App.tsx line 117); `complete` is the resolution of the
awaited `analyzeGesture` promise, possible only while a call is outstanding;
`toggle` is a press of the header button; `fail` is `onError` →
`handleError`. -/
inductive Event where
  | tick (img : String)
  | complete (now : ℕ) (result : GestureResponse)
  | toggle
  | fail (msg : String)
deriving DecidableEq, Repr

/-- One step of the closed-loop model. -/
def step (s : AppModel) : Event → AppModel
  | Event.tick img =>
      if s.appState = AppState.SCANNING then handleCaptureEntry s img else s
  | Event.complete now result =>
      if s.outstanding = [] then s else handleCaptureResume now result s
  | Event.toggle => pressToggleButton s
  | Event.fail msg => handleError s msg

/-- Run a sequence of events from a state. -/
def run (s : AppModel) (evs : List Event) : AppModel :=
  evs.foldl step s

@[simp]
theorem ingestResult_currentResult (now : ℕ) (result : GestureResponse) (s : AppModel) :
    (ingestResult now result s).currentResult = some result := by
  unfold ingestResult
  by_cases h : acceptedForHistory result <;> simp [h]

theorem ingestResult_history (now : ℕ) (result : GestureResponse) (s : AppModel) :
    (ingestResult now result s).history =
      if acceptedForHistory result then pushHistory now result s.history
      else s.history := by
  unfold ingestResult
  by_cases h : acceptedForHistory result <;> simp [h]

@[simp]
theorem ingestResult_appState (now : ℕ) (result : GestureResponse) (s : AppModel) :
    (ingestResult now result s).appState = s.appState := by
  unfold ingestResult
  by_cases h : acceptedForHistory result <;> simp [h]

@[simp]
theorem ingestResult_errorMsg (now : ℕ) (result : GestureResponse) (s : AppModel) :
    (ingestResult now result s).errorMsg = s.errorMsg := by
  unfold ingestResult
  by_cases h : acceptedForHistory result <;> simp [h]

@[simp]
theorem ingestResult_isProcessingRef (now : ℕ) (result : GestureResponse) (s : AppModel) :
    (ingestResult now result s).isProcessingRef = s.isProcessingRef := by
  unfold ingestResult
  by_cases h : acceptedForHistory result <;> simp [h]

@[simp]
theorem ingestResult_outstanding (now : ℕ) (result : GestureResponse) (s : AppModel) :
    (ingestResult now result s).outstanding = s.outstanding := by
  unfold ingestResult
  by_cases h : acceptedForHistory result <;> simp [h]

@[simp]
theorem resume_isProcessingRef (now : ℕ) (result : GestureResponse) (s : AppModel) :
    (handleCaptureResume now result s).isProcessingRef = false := rfl

@[simp]
theorem resume_currentResult (now : ℕ) (result : GestureResponse) (s : AppModel) :
    (handleCaptureResume now result s).currentResult = some result := by
  unfold handleCaptureResume
  simp

@[simp]
theorem resume_outstanding (now : ℕ) (result : GestureResponse) (s : AppModel) :
    (handleCaptureResume now result s).outstanding = s.outstanding.drop 1 := by
  unfold handleCaptureResume
  simp

@[simp]
theorem resume_appState (now : ℕ) (result : GestureResponse) (s : AppModel) :
    (handleCaptureResume now result s).appState = s.appState := by
  unfold handleCaptureResume
  simp

theorem resume_history (now : ℕ) (result : GestureResponse) (s : AppModel) :
    (handleCaptureResume now result s).history =
      if acceptedForHistory result then pushHistory now result s.history
      else s.history := by
  unfold handleCaptureResume
  simp [ingestResult_history]

/-- The single-flight invariant: at most one call outstanding, and the
processing guard is set exactly while one is. -/
def GuardInv (s : AppModel) : Prop :=
  s.outstanding.length ≤ 1 ∧ (s.isProcessingRef = true ↔ s.outstanding ≠ [])

theorem guardInv_init : GuardInv initModel := by
  constructor <;> simp [initModel]

theorem guardInv_step {s : AppModel} (h : GuardInv s) (e : Event) :
    GuardInv (step s e) := by
  obtain ⟨hlen, hiff⟩ := h
  cases e with
  | tick img =>
      by_cases hsc : s.appState = AppState.SCANNING
      · by_cases hp : s.isProcessingRef
        · simpa [step, hsc, handleCaptureEntry, hp] using ⟨hlen, hiff⟩
        · have hout : s.outstanding = [] := by
            by_contra hne
            exact hp (hiff.mpr hne)
          simp [step, hsc, handleCaptureEntry, hp, GuardInv, hout]
      · simpa [step, hsc] using ⟨hlen, hiff⟩
  | complete now result =>
      by_cases hout : s.outstanding = []
      · simpa [step, hout] using ⟨hlen, hiff⟩
      · have hdrop : s.outstanding.drop 1 = [] := by
          have h1 : 0 < s.outstanding.length := List.length_pos.mpr hout
          have : (s.outstanding.drop 1).length = 0 := by
            simp only [List.length_drop]
            omega
          exact List.eq_nil_of_length_eq_zero this
        constructor
        · simp [step, hout, hdrop]
        · simp [step, hout, hdrop]
  | toggle =>
      by_cases he : s.appState = AppState.ERROR
      · simpa [step, pressToggleButton, he] using ⟨hlen, hiff⟩
      · by_cases hsc : s.appState = AppState.SCANNING
        · simpa [step, pressToggleButton, he, toggleScanning, hsc, GuardInv]
            using ⟨hlen, hiff⟩
        · simpa [step, pressToggleButton, he, toggleScanning, hsc, GuardInv]
            using ⟨hlen, hiff⟩
  | fail msg =>
      simpa [step, handleError, GuardInv] using ⟨hlen, hiff⟩

theorem guardInv_run (evs : List Event) : GuardInv (run initModel evs) := by
  suffices h : ∀ s, GuardInv s → GuardInv (run s evs) from h _ guardInv_init
  induction evs with
  | nil => intro s hs; exact hs
  | cons e evs ih =>
      intro s hs
      exact ih _ (guardInv_step hs e)

theorem outstanding_length_run (evs : List Event) :
    (run initModel evs).outstanding.length ≤ 1 :=
  (guardInv_run evs).1

theorem guard_iff_run (evs : List Event) :
    (run initModel evs).isProcessingRef = true ↔ (run initModel evs).outstanding ≠ [] :=
  (guardInv_run evs).2

theorem tick_dropped_of_guard (s : AppModel) (img : String)
    (h : s.isProcessingRef = true) : step s (Event.tick img) = s := by
  unfold step
  by_cases hsc : s.appState = AppState.SCANNING
  · simp [hsc, handleCaptureEntry, h]
  · simp [hsc]

/-- C1: single-flight guard.  Along every event sequence from the initial
state, at most one `analyzeGesture` call is outstanding; the guard
`isProcessingRef` is true exactly while one is (so it is set when the call is
issued and cleared only after the completion is ingested); a tick arriving
while the guard is true leaves the state exactly unchanged (dropped, not
queued); and every completion — success or sentinel error alike — is ingested
into the current result with the guard cleared afterwards. -/
theorem single_flight_guard (evs : List Event) :
    (run initModel evs).outstanding.length ≤ 1 ∧
    ((run initModel evs).isProcessingRef = true ↔
      (run initModel evs).outstanding ≠ []) ∧
    (∀ img, (run initModel evs).isProcessingRef = true →
      step (run initModel evs) (Event.tick img) = run initModel evs) ∧
    (∀ now result, (run initModel evs).outstanding ≠ [] →
      (step (run initModel evs) (Event.complete now result)).isProcessingRef = false ∧
      (step (run initModel evs) (Event.complete now result)).currentResult =
        some result) := by
  refine ⟨outstanding_length_run evs, guard_iff_run evs, ?_, ?_⟩
  · intro img h
    exact tick_dropped_of_guard _ img h
  · intro now result hout
    constructor <;> simp [step, hout]

/-- Witness for C1 at the concrete run `[toggle, tick "a"]`, which leaves the
guard set with one outstanding call. -/
theorem single_flight_guard_witness :
    (run initModel [Event.toggle, Event.tick "a"]).isProcessingRef = true ∧
    step (run initModel [Event.toggle, Event.tick "a"]) (Event.tick "b") =
      run initModel [Event.toggle, Event.tick "a"] ∧
    (run initModel [Event.toggle, Event.tick "a"]).outstanding ≠ [] ∧
    (step (run initModel [Event.toggle, Event.tick "a"])
      (Event.complete 7 errorSentinel)).isProcessingRef = false :=
  ⟨by decide,
   (single_flight_guard [Event.toggle, Event.tick "a"]).2.2.1 "b" (by decide),
   by decide,
   ((single_flight_guard [Event.toggle, Event.tick "a"]).2.2.2 7 errorSentinel
     (by decide)).1⟩

/-- Example classification from the spec: label "Fist" with confidence 0.61. -/
def fist61 : GestureResponse :=
  { gesture := "Fist"
    confidence := mkRat 61 100
    description := "A closed fist."
    emoji := "✊" }

/-- Example classification from the spec: label "Fist" with confidence 0.60. -/
def fist60 : GestureResponse :=
  { gesture := "Fist"
    confidence := mkRat 60 100
    description := "A closed fist."
    emoji := "✊" }

/-- Example classification from the spec: label "None" with confidence 0.95. -/
def none95 : GestureResponse :=
  { gesture := "None"
    confidence := mkRat 95 100
    description := "No gesture visible."
    emoji := "❓" }

/-- C2: acceptance policy.  A classification passes the history filter of
App.tsx line 33 exactly when its label differs from the sentinel labels
(spelled "None" and "Error" in the code) and its confidence is strictly
above 0.6; ingestion appends a history entry exactly when the filter passes
(at the front when below capacity, and never otherwise); and on the spec's
examples: Fist/0.61 is accepted, Fist/0.60 and None/0.95 are not. -/
theorem acceptance_policy :
    (∀ result, acceptedForHistory result = true ↔
      (result.gesture ≠ "None" ∧ result.gesture ≠ "Error" ∧
        mkRat 6 10 < result.confidence)) ∧
    (∀ now result s, acceptedForHistory result = false →
      (ingestResult now result s).history = s.history) ∧
    (∀ now result s, acceptedForHistory result = true → s.history.length < 20 →
      (ingestResult now result s).history =
        { timestamp := now, result := result } :: s.history) ∧
    acceptedForHistory fist61 = true ∧
    acceptedForHistory fist60 = false ∧
    acceptedForHistory none95 = false := by
  refine ⟨?_, ?_, ?_, by decide, by decide, by decide⟩
  · intro result
    simp [acceptedForHistory, Bool.and_eq_true, bne_iff_ne, decide_eq_true_iff,
      and_assoc]
  · intro now result s h
    simp [ingestResult_history, h]
  · intro now result s h hlt
    rw [ingestResult_history]
    simp only [h, if_true]
    unfold pushHistory
    have h19 : s.history.length ≤ 19 := by omega
    have : (20 : ℕ) = 19 + 1 := by norm_num
    rw [this, List.take_succ_cons, List.take_of_length_le h19]

/-- Witness for C2: the acceptance examples applied through ingestion on the
empty history. -/
theorem acceptance_policy_witness :
    (ingestResult 3 fist60 initModel).history = initModel.history ∧
    (ingestResult 3 fist61 initModel).history =
      [{ timestamp := 3, result := fist61 }] ∧
    (acceptedForHistory fist61 = true ↔
      (fist61.gesture ≠ "None" ∧ fist61.gesture ≠ "Error" ∧
        mkRat 6 10 < fist61.confidence)) :=
  ⟨(acceptance_policy.2.1 3 fist60 initModel (by decide)),
   (acceptance_policy.2.2.1 3 fist61 initModel (by decide) (by decide)),
   acceptance_policy.1 fist61⟩

@[simp]
theorem entry_history (s : AppModel) (img : String) :
    (handleCaptureEntry s img).history = s.history := by
  unfold handleCaptureEntry
  by_cases h : s.isProcessingRef <;> simp [h]

@[simp]
theorem toggle_history (s : AppModel) :
    (toggleScanning s).history = s.history := by
  unfold toggleScanning
  by_cases h : s.appState = AppState.SCANNING <;> simp [h]

@[simp]
theorem pressToggle_history (s : AppModel) :
    (pressToggleButton s).history = s.history := by
  unfold pressToggleButton
  by_cases h : s.appState = AppState.ERROR <;> simp [h]

@[simp]
theorem handleError_history (s : AppModel) (msg : String) :
    (handleError s msg).history = s.history := rfl

theorem pushHistory_length_le (now : ℕ) (result : GestureResponse)
    (prev : List HistoryItem) : (pushHistory now result prev).length ≤ 20 := by
  unfold pushHistory
  simp [List.length_take]

theorem histLen_step {s : AppModel} (h : s.history.length ≤ 20) (e : Event) :
    (step s e).history.length ≤ 20 := by
  cases e with
  | tick img =>
      by_cases hsc : s.appState = AppState.SCANNING <;> simp [step, hsc, h]
  | complete now result =>
      by_cases hout : s.outstanding = []
      · simpa [step, hout] using h
      · rw [step]
        simp only [hout, if_false]
        rw [resume_history]
        by_cases hacc : acceptedForHistory result
        · simpa [hacc] using pushHistory_length_le now result s.history
        · simpa [hacc] using h
  | toggle => simpa [step] using h
  | fail msg => simpa [step] using h

theorem histLen_run (evs : List Event) :
    (run initModel evs).history.length ≤ 20 := by
  suffices h : ∀ s, s.history.length ≤ 20 → (run s evs).history.length ≤ 20 by
    exact h initModel (by simp [initModel])
  induction evs with
  | nil => intro s hs; exact hs
  | cons e evs ih =>
      intro s hs
      exact ih _ (histLen_step hs e)

/-- C3: bounded history.  Along every event sequence from the initial state
the history never holds more than 20 entries; an accepted classification is
inserted at the front of the history, keeping the first 20 entries; and when
an entry is accepted while the history holds exactly 20 entries, the result
is the new entry in front of the old history with exactly its oldest (last)
entry evicted. -/
theorem bounded_history (evs : List Event) :
    (run initModel evs).history.length ≤ 20 ∧
    (∀ now result s, acceptedForHistory result = true →
      (ingestResult now result s).history =
        ({ timestamp := now, result := result } :: s.history).take 20) ∧
    (∀ now result s, acceptedForHistory result = true → s.history.length = 20 →
      (ingestResult now result s).history =
        { timestamp := now, result := result } :: s.history.dropLast) := by
  refine ⟨histLen_run evs, ?_, ?_⟩
  · intro now result s h
    rw [ingestResult_history]
    simp [h, pushHistory]
  · intro now result s h h20
    rw [ingestResult_history]
    simp only [h, if_true]
    unfold pushHistory
    have h1 : (20 : ℕ) = 19 + 1 := by norm_num
    rw [h1, List.take_succ_cons]
    have h2 : s.history.dropLast = s.history.take 19 := by
      rw [List.dropLast_eq_take, h20]
    rw [h2]

/-- Witness for C3: inserting an accepted entry into a full 20-entry history
evicts exactly the oldest entry. -/
theorem bounded_history_witness :
    (ingestResult 21 fist61
        { initModel with
          history := (List.range 20).map
            (fun i => { timestamp := i, result := fist61 }) }).history =
      { timestamp := 21, result := fist61 } ::
        ((List.range 20).map
          (fun i => ({ timestamp := i, result := fist61 } : HistoryItem))).dropLast :=
  (bounded_history []).2.2 21 fist61
    { initModel with
      history := (List.range 20).map
        (fun i => { timestamp := i, result := fist61 }) }
    (by decide) (by simp)

/-- C4 counterexample: the gateway's synthesized fallback is not the
lowercase-labelled sentinel the claim states — on a transport failure
`analyzeGesture` returns the label "Error" (capitalized) and the emoji
U+26A0 U+FE0F, not "error" and the bare U+26A0 glyph. -/
theorem sentinel_label_counterexample :
    analyzeGesture CallOutcome.transportError ≠ specSentinel ∧
    (analyzeGesture CallOutcome.transportError).gesture = "Error" ∧
    (analyzeGesture CallOutcome.transportError).emoji = "⚠️" := by
  refine ⟨?_, rfl, rfl⟩
  intro h
  have := congrArg GestureResponse.gesture h
  simp [analyzeGesture, errorSentinel, specSentinel] at this

/-- C4 (amended): sentinel on oracle failure.  For every failure outcome of
the oracle call — transport error, absent or empty response text, or parse
error — `analyzeGesture` returns exactly the fixed sentinel classification
with gesture "Error", confidence 0, description "Failed to analyze frame."
and emoji U+26A0 U+FE0F, and a parsed response is returned unchanged; the
function is total, so no error ever propagates to the caller. -/
theorem sentinel_on_failure :
    analyzeGesture CallOutcome.transportError = errorSentinel ∧
    analyzeGesture CallOutcome.emptyText = errorSentinel ∧
    analyzeGesture CallOutcome.parseError = errorSentinel ∧
    errorSentinel =
      { gesture := "Error"
        confidence := 0
        description := "Failed to analyze frame."
        emoji := "⚠️"
        actionSuggested := none } ∧
    (∀ r, analyzeGesture (CallOutcome.parsed r) = r) := by
  exact ⟨rfl, rfl, rfl, rfl, fun r => rfl⟩

/-- C5: current-result totality.  Ingesting a completed call's result always
overwrites the current result with that classification, whatever its label
and confidence and whether or not the acceptance policy admits it to the
history; the same holds through the resume half of `handleCapture` and
through a `complete` event whenever a call is outstanding. -/
theorem current_result_totality (now : ℕ) (result : GestureResponse) (s : AppModel) :
    (ingestResult now result s).currentResult = some result ∧
    (handleCaptureResume now result s).currentResult = some result ∧
    (s.outstanding ≠ [] →
      (step s (Event.complete now result)).currentResult = some result) := by
  refine ⟨ingestResult_currentResult now result s,
    resume_currentResult now result s, ?_⟩
  intro hout
  simp [step, hout]

/-- Witness for C5: a completion carrying the rejected sentinel still becomes
the current result. -/
theorem current_result_totality_witness :
    (step { initModel with outstanding := ["a"] }
      (Event.complete 4 errorSentinel)).currentResult = some errorSentinel :=
  (current_result_totality 4 errorSentinel
    { initModel with outstanding := ["a"] }).2.2 (by decide)

/-- C6: cooperative cancellation.  From a scanning state with one call in
flight, pressing stop moves the phase to `IDLE` while the call stays
outstanding; every subsequent tick is refused (the capture loop only invokes
`onCapture` while scanning), yet the in-flight call's eventual completion is
still delivered: it becomes the current result and, exactly when the
acceptance policy admits it, is appended to the history. -/
theorem stop_inflight_delivery (s : AppModel) (img : String)
    (hsc : s.appState = AppState.SCANNING) (hout : s.outstanding = [img]) :
    (step s Event.toggle).appState = AppState.IDLE ∧
    (step s Event.toggle).outstanding = [img] ∧
    (∀ img2, step (step s Event.toggle) (Event.tick img2) = step s Event.toggle) ∧
    (∀ now result,
      (step (step s Event.toggle) (Event.complete now result)).currentResult =
        some result ∧
      (step (step s Event.toggle) (Event.complete now result)).history =
        (if acceptedForHistory result then pushHistory now result s.history
         else s.history)) := by
  have hstop : step s Event.toggle =
      { s with appState := AppState.IDLE, currentResult := none } := by
    simp [step, pressToggleButton, toggleScanning, hsc]
  rw [hstop]
  refine ⟨rfl, hout, ?_, ?_⟩
  · intro img2
    simp [step]
  · intro now result
    have hne :
        ({ s with appState := AppState.IDLE, currentResult := none } :
          AppModel).outstanding ≠ [] := by
      simp [hout]
    refine ⟨by simp [step, hne], ?_⟩
    rw [step]
    simp only [hne, if_false]
    rw [resume_history]

/-- Concrete scanning state holding exactly one in-flight call. -/
def inflightState : AppModel :=
  { appState := AppState.SCANNING
    currentResult := none
    history := []
    isProcessing := true
    errorMsg := none
    isProcessingRef := true
    outstanding := ["img0"] }

/-- Witness for C6: stop `inflightState`, then complete the call with an
accepted classification; it still lands in the current result and history. -/
theorem stop_inflight_delivery_witness :
    (step (step inflightState Event.toggle) (Event.complete 9 fist61)).currentResult =
      some fist61 ∧
    (step (step inflightState Event.toggle) (Event.complete 9 fist61)).history =
      (if acceptedForHistory fist61 then pushHistory 9 fist61 inflightState.history
       else inflightState.history) ∧
    (step (step inflightState Event.toggle) (Event.tick "next")) =
      step inflightState Event.toggle :=
  ⟨((stop_inflight_delivery inflightState "img0" rfl rfl).2.2.2 9 fist61).1,
   ((stop_inflight_delivery inflightState "img0" rfl rfl).2.2.2 9 fist61).2,
   (stop_inflight_delivery inflightState "img0" rfl rfl).2.2.1 "next"⟩

/-- Idle state left holding a stale current result and an error message. -/
def staleState : AppModel :=
  { appState := AppState.IDLE
    currentResult := some fist61
    history := []
    isProcessing := false
    errorMsg := some "stale message"
    isProcessingRef := false
    outstanding := [] }

/-- C7 counterexample: activating from `staleState` moves the phase to
`SCANNING` but the held current result survives, contradicting the claim
that start clears it. -/
theorem start_keeps_result_counterexample :
    (toggleScanning staleState).appState = AppState.SCANNING ∧
    (toggleScanning staleState).currentResult = some fist61 := by
  constructor <;> decide

/-- C7 (amended): start behaviour.  Toggling from any non-scanning phase
moves the phase to `SCANNING` and clears the error message, and changes
nothing else — in particular the held current result and the history are
left untouched (the current result is cleared by the stop branch instead). -/
theorem start_behavior (s : AppModel) (h : s.appState ≠ AppState.SCANNING) :
    toggleScanning s =
      { s with appState := AppState.SCANNING, errorMsg := none } ∧
    (toggleScanning s).currentResult = s.currentResult ∧
    (toggleScanning s).history = s.history ∧
    (toggleScanning s).errorMsg = none := by
  have ht : toggleScanning s =
      { s with appState := AppState.SCANNING, errorMsg := none } := by
    simp [toggleScanning, h]
  rw [ht]
  exact ⟨rfl, rfl, rfl, rfl⟩

/-- Witness for C7's amended theorem at the concrete stale state. -/
theorem start_behavior_witness :
    toggleScanning staleState =
      { staleState with appState := AppState.SCANNING, errorMsg := none } ∧
    (toggleScanning staleState).currentResult = staleState.currentResult :=
  ⟨(start_behavior staleState (by decide)).1,
   (start_behavior staleState (by decide)).2.1⟩

theorem error_absorbing {s : AppModel} (h : s.appState = AppState.ERROR)
    (e : Event) : (step s e).appState = AppState.ERROR := by
  cases e with
  | tick img => simp [step, h]
  | complete now result =>
      by_cases hout : s.outstanding = []
      · simp [step, hout, h]
      · simp [step, hout, h]
  | toggle => simp [step, pressToggleButton, h]
  | fail msg => simp [step, handleError]

theorem error_absorbing_run {s : AppModel} (h : s.appState = AppState.ERROR)
    (evs : List Event) : (run s evs).appState = AppState.ERROR := by
  induction evs generalizing s with
  | nil => exact h
  | cons e evs ih => exact ih (error_absorbing h e)

/-- C8: failure latch.  `handleError` invoked while scanning moves the phase
to `ERROR` and records the diagnostic reason; the header button is disabled
in that phase, so pressing it changes nothing, and no event of the system —
ticks, completions, button presses or further failures — ever leaves the
`ERROR` phase (the code exposes no reset path). -/
theorem failure_latch (s : AppModel) (msg : String)
    (_h : s.appState = AppState.SCANNING) :
    (handleError s msg).appState = AppState.ERROR ∧
    (handleError s msg).errorMsg = some msg ∧
    pressToggleButton (handleError s msg) = handleError s msg ∧
    (∀ evs, (run (handleError s msg) evs).appState = AppState.ERROR) := by
  refine ⟨rfl, rfl, ?_, ?_⟩
  · simp [pressToggleButton, handleError]
  · intro evs
    exact error_absorbing_run rfl evs

/-- Concrete scanning state used to witness the failure latch. -/
def scanningState : AppModel :=
  { initModel with appState := AppState.SCANNING }

/-- Witness for C8 at a concrete scanning state and failure reason. -/
theorem failure_latch_witness :
    (handleError scanningState "Camera access denied or unavailable.").appState =
      AppState.ERROR ∧
    pressToggleButton
        (handleError scanningState "Camera access denied or unavailable.") =
      handleError scanningState "Camera access denied or unavailable." ∧
    (run (handleError scanningState "Camera access denied or unavailable.")
      [Event.toggle, Event.tick "a"]).appState = AppState.ERROR :=
  ⟨(failure_latch scanningState "Camera access denied or unavailable." rfl).1,
   (failure_latch scanningState "Camera access denied or unavailable." rfl).2.2.1,
   (failure_latch scanningState "Camera access denied or unavailable." rfl).2.2.2
     [Event.toggle, Event.tick "a"]⟩

/-- C9: history frame property.  Neither branch of the toggle (start or
stop), nor a button press, nor a failure, nor a tick ever changes the
history — so the history survives stop/start cycles — and a completion whose
classification fails the acceptance policy leaves it unchanged as well: the
history is modified only by ingesting an accepted classification. -/
theorem history_frame (s : AppModel) (msg img : String) (now : ℕ)
    (result : GestureResponse) :
    (toggleScanning s).history = s.history ∧
    (toggleScanning (toggleScanning s)).history = s.history ∧
    (pressToggleButton s).history = s.history ∧
    (handleError s msg).history = s.history ∧
    (step s (Event.tick img)).history = s.history ∧
    (acceptedForHistory result = false →
      (step s (Event.complete now result)).history = s.history) := by
  refine ⟨toggle_history s, by simp, pressToggle_history s, rfl, ?_, ?_⟩
  · by_cases hsc : s.appState = AppState.SCANNING <;> simp [step, hsc]
  · intro hacc
    by_cases hout : s.outstanding = []
    · simp [step, hout]
    · rw [step]
      simp only [hout, if_false]
      rw [resume_history]
      simp [hacc]

/-- Witness for C9: a completed "None" classification (rejected by the
policy) leaves the history of a state with one in-flight call unchanged. -/
theorem history_frame_witness :
    (step { initModel with outstanding := ["b"] }
      (Event.complete 2 none95)).history =
      ({ initModel with outstanding := ["b"] } : AppModel).history :=
  (history_frame { initModel with outstanding := ["b"] } "m" "i" 2
    none95).2.2.2.2.2 (by decide)

/-- Probe classification with the lowercase label "none" and high
confidence. -/
def lowerNone : GestureResponse :=
  { gesture := "none"
    confidence := mkRat 95 100
    description := "lowercase label probe"
    emoji := "❓" }

/-- Probe classification with the lowercase label "error" and confidence
above the threshold. -/
def lowerError : GestureResponse :=
  { gesture := "error"
    confidence := mkRat 70 100
    description := "lowercase label probe"
    emoji := "⚠" }

/-- C10: case-sensitive policy.  The acceptance test compares the label
against exactly the capitalized strings "None" and "Error": the lowercase
spellings "none" and "error" with confidence above 0.6 pass the filter and
are appended to the history by ingestion, while the capitalized spellings
are rejected; and the gateway's synthesized failure carries exactly the
capitalized label "Error", which is what the policy's rejection of
gateway-synthesized failures keys on. -/
theorem case_sensitive_policy :
    acceptedForHistory lowerNone = true ∧
    acceptedForHistory lowerError = true ∧
    acceptedForHistory { lowerNone with gesture := "None" } = false ∧
    acceptedForHistory { lowerError with gesture := "Error" } = false ∧
    (ingestResult 5 lowerNone initModel).history =
      [{ timestamp := 5, result := lowerNone }] ∧
    (ingestResult 5 lowerError initModel).history =
      [{ timestamp := 5, result := lowerError }] ∧
    (analyzeGesture CallOutcome.transportError).gesture = "Error" ∧
    errorSentinel.gesture ≠ "error" := by
  refine ⟨by decide, by decide, by decide, by decide, by decide, by decide,
    rfl, by decide⟩
